import Mathlib

/-!
Shallow embedding of the wallp wallpaper lifecycle and scheduling engine
(src/config.rs, src/manager.rs, src/scheduler.rs).

Modelling conventions:
* RFC3339 timestamp strings are modelled by `Tstamp`: a stored string either
  parses to an instant (`Int`, seconds since epoch) or fails to parse.
  `chrono::Utc::now().to_rfc3339()` always round-trips, so a freshly written
  timestamp is `Tstamp.parsed now`.
* `Utc::now()` is modelled as the single instant `Env.now` at which the
  operation runs.
* External effects (file existence, the OS wallpaper-set call, the Unsplash
  provider, the image download) are modelled by oracles in `Env`; the files
  present in the wallpapers directory are the `files` component of `World`.
* Each manager operation loads the persisted record, mutates it in memory and
  persists it with `save` only on the success path; an `anyhow` error returned
  before `save` leaves the persisted record unchanged, which the model renders
  by returning the input world together with `some` error.
-/

namespace Wallp

/-- A stored ISO-8601 timestamp string: either one that
`chrono::DateTime::parse_from_rfc3339` accepts (carrying the instant it
denotes, in seconds), or an arbitrary string that fails to parse. -/
inductive Tstamp where
  | parsed (t : Int) : Tstamp
  | invalid (s : String) : Tstamp
deriving DecidableEq, Repr, Inhabited

/-- Model of `chrono::DateTime::parse_from_rfc3339`. -/
def parseRfc3339 : Tstamp → Option Int
  | Tstamp.parsed t => some t
  | Tstamp.invalid _ => none

/-- `chrono::Duration::minutes` in seconds. -/
def minutes (m : Nat) : Int := (m : Int) * 60

/-- `chrono::Duration::days` in seconds. -/
def days (n : Nat) : Int := (n : Int) * 86400

/-- `Config` from src/config.rs. -/
structure Config where
  unsplash_access_key : String
  collections : List String
  custom_collections : List (String × String)
  interval_minutes : Nat
  retention_days : Option Nat
deriving DecidableEq, Repr

/-- `State` from src/config.rs. -/
structure State where
  is_running : Bool
  next_run_at : Tstamp
  last_run_at : Tstamp
  current_wallpaper_id : Option String
  current_history_index : Nat
deriving DecidableEq, Repr

/-- `Wallpaper` (one history entry) from src/config.rs. -/
structure Wallpaper where
  id : String
  filename : String
  applied_at : Tstamp
  title : Option String
  author : Option String
  url : Option String
deriving DecidableEq, Repr, Inhabited

/-- `AppData` from src/config.rs. -/
structure AppData where
  config : Config
  state : State
  history : List Wallpaper
deriving DecidableEq, Repr

/-- The persisted record together with the files present in the wallpapers
directory. -/
structure World where
  data : AppData
  files : List String
deriving DecidableEq, Repr

/-- `UnsplashPhoto` from src/unsplash.rs. -/
structure Photo where
  id : String
  description : Option String
  alt_description : Option String
  urls_full : String
  user_name : String
  links_html : String
deriving DecidableEq, Repr

/-- The `anyhow` errors the modelled operations can surface. -/
inductive WallpErr where
  | missingKey : WallpErr
  | providerError : WallpErr
  | downloadError : WallpErr
  | fileNotFound (filename : String) : WallpErr
  | setFailed : WallpErr
  | noPrevious : WallpErr
  | parseError : WallpErr
deriving DecidableEq, Repr

/-- Oracles for the external world during one operation: the clock, file
existence in the wallpapers directory, the OS wallpaper-set call, the
provider fetch and the image download. -/
structure Env where
  now : Int
  fsHas : String → Bool
  setOk : String → Bool
  fetchRandom : Except WallpErr Photo
  downloadOk : Bool

/-- `Option::or` on the metadata fields. -/
def optOr (a b : Option String) : Option String :=
  match a with
  | some x => some x
  | none => b

/-- `set_wallpaper_from_history` from src/manager.rs: bail if the backing
file is missing, then invoke the OS wallpaper-set call. -/
def set_wallpaper_from_history (env : Env) (wp : Wallpaper) : Option WallpErr :=
  if env.fsHas wp.filename = false then some (WallpErr.fileNotFound wp.filename)
  else if env.setOk wp.filename = false then some WallpErr.setFailed
  else none

/-- `fetch_and_set_new` from src/manager.rs: require a credential, fetch a
candidate, download its artifact, set the wallpaper (propagating a failure
before anything is committed), then append the history entry, move the
cursor to the new end, stamp `last_run_at`/`next_run_at` and save. -/
def fetch_and_set_new (w : World) (env : Env) : World × Option WallpErr :=
  if w.data.config.unsplash_access_key = "" then (w, some WallpErr.missingKey)
  else
    match env.fetchRandom with
    | Except.error e => (w, some e)
    | Except.ok photo =>
      let filename := "wallpaper_" ++ photo.id ++ ".jpg"
      if env.downloadOk = false then (w, some WallpErr.downloadError)
      else
        let files1 := w.files ++ [filename]
        if env.setOk filename = false then
          ({ w with files := files1 }, some WallpErr.setFailed)
        else
          let entry : Wallpaper :=
            { id := photo.id
              filename := filename
              applied_at := Tstamp.parsed env.now
              title := optOr photo.description photo.alt_description
              author := some photo.user_name
              url := some photo.links_html }
          let hist := w.data.history ++ [entry]
          ({ data :=
              { config := w.data.config
                state :=
                  { is_running := w.data.state.is_running
                    next_run_at :=
                      Tstamp.parsed (env.now + minutes w.data.config.interval_minutes)
                    last_run_at := Tstamp.parsed env.now
                    current_wallpaper_id := some photo.id
                    current_history_index := hist.length - 1 }
                history := hist }
             files := files1 }, none)

/-- `next` from src/manager.rs: if the cursor is before the end of history,
advance it and re-apply the cached entry (also pushing `next_run_at`
forward); otherwise fetch a new wallpaper. -/
def next (w : World) (env : Env) : World × Option WallpErr :=
  let d := w.data
  if d.state.current_history_index < d.history.length - 1 then
    let idx := d.state.current_history_index + 1
    let wp := d.history.getD idx default
    match set_wallpaper_from_history env wp with
    | some e => (w, some e)
    | none =>
      ({ w with data :=
          { d with state :=
              { d.state with
                current_history_index := idx
                next_run_at :=
                  Tstamp.parsed (env.now + minutes d.config.interval_minutes) } } },
       none)
  else
    fetch_and_set_new w env

/-- `prev` from src/manager.rs: if the cursor is after 0, retreat it and
re-apply the cached entry; otherwise bail with "No previous wallpaper
available". -/
def prev (w : World) (env : Env) : World × Option WallpErr :=
  let d := w.data
  if 0 < d.state.current_history_index then
    let idx := d.state.current_history_index - 1
    let wp := d.history.getD idx default
    match set_wallpaper_from_history env wp with
    | some e => (w, some e)
    | none =>
      ({ w with data :=
          { d with state := { d.state with current_history_index := idx } } },
       none)
  else
    (w, some WallpErr.noPrevious)

/-- `new` from src/manager.rs: load and force a fetch. -/
def new (w : World) (env : Env) : World × Option WallpErr :=
  fetch_and_set_new w env

/-- `get_current_wallpaper` from src/manager.rs. -/
def get_current_wallpaper (d : AppData) : Option Wallpaper :=
  if d.history.isEmpty then none
  else d.history[d.state.current_history_index]?

/-- `check_and_run` from src/scheduler.rs: skip silently without a
credential, fail the tick on an unparsable `next_run_at`, and when the due
time has passed invoke `manager::next`. -/
def check_and_run (w : World) (env : Env) : World × Option WallpErr :=
  if w.data.config.unsplash_access_key = "" then (w, none)
  else
    match parseRfc3339 w.data.state.next_run_at with
    | none => (w, some WallpErr.parseError)
    | some t => if t ≤ env.now then next w env else (w, none)

/-- The file-deletion loop of the `retention == 0` branch of
`cleanup_old_wallpapers_in`: for each drained entry, delete its backing
file when present, counting only successful deletions. -/
def deleteFiles (delOk : String → Bool) :
    List Wallpaper → List String → List String × Nat
  | [], files => (files, 0)
  | wp :: rest, files =>
    if wp.filename ∈ files then
      if delOk wp.filename then
        let r := deleteFiles delOk rest (files.erase wp.filename)
        (r.1, r.2 + 1)
      else
        deleteFiles delOk rest files
    else
      deleteFiles delOk rest files

/-- Is this entry stale at the cutoff: its `applied_at` parses and is
strictly before the cutoff? -/
def staleAt (cutoff : Int) (wp : Wallpaper) : Bool :=
  match parseRfc3339 wp.applied_at with
  | some t => decide (t < cutoff)
  | none => false

/-- The `retain` loop of `cleanup_old_wallpapers_in` for a positive
retention: drop each stale entry from history, deleting its backing file
when present and counting only successful deletions; keep everything else. -/
def retainLoop (cutoff : Int) (delOk : String → Bool) :
    List Wallpaper → List String → List Wallpaper × List String × Nat
  | [], files => ([], files, 0)
  | wp :: rest, files =>
    if staleAt cutoff wp then
      if wp.filename ∈ files then
        if delOk wp.filename then
          let r := retainLoop cutoff delOk rest (files.erase wp.filename)
          (r.1, r.2.1, r.2.2 + 1)
        else
          retainLoop cutoff delOk rest files
      else
        retainLoop cutoff delOk rest files
    else
      let r := retainLoop cutoff delOk rest files
      (wp :: r.1, r.2.1, r.2.2)

/-- The final clamp of `cleanup_old_wallpapers_in`: pull
`current_history_index` back to `len.saturating_sub(1)` when it is out of
bounds. -/
def clampIndex (d : AppData) : AppData :=
  if d.history.length ≤ d.state.current_history_index then
    { d with state :=
        { d.state with current_history_index := d.history.length - 1 } }
  else d

/-- `cleanup_old_wallpapers_in` from src/config.rs: keep forever when no
retention is set; with retention 0 drain all but the most recent entry;
otherwise retain exactly the entries that are not stale at
`now - retention days`; finally clamp the cursor. Returns the updated
record, the files still present, and the reported count. -/
def cleanup_old_wallpapers_in (d : AppData) (files : List String) (now : Int)
    (delOk : String → Bool) : AppData × List String × Nat :=
  match d.config.retention_days with
  | none => (d, files, 0)
  | some retention =>
    if retention = 0 then
      let step :=
        if 1 < d.history.length then
          let toRemove := d.history.take (d.history.length - 1)
          let kept := d.history.drop (d.history.length - 1)
          let r := deleteFiles delOk toRemove files
          (({ d with history := kept } : AppData), r.1, r.2)
        else (d, files, 0)
      (clampIndex step.1, step.2.1, step.2.2)
    else
      let cutoff := now - days retention
      let r := retainLoop cutoff delOk d.history files
      (clampIndex { d with history := r.1 }, r.2.1, r.2.2)

/-- The index-bounds invariant of §3: the cursor is in bounds whenever
history is non-empty, and conventionally 0 when it is empty. -/
def indexOk (d : AppData) : Prop :=
  (d.history = [] → d.state.current_history_index = 0) ∧
  (d.history ≠ [] → d.state.current_history_index < d.history.length)

/-- The denormalized-pointer invariant of §3: `current_wallpaper_id`
matches the id of the entry under the cursor when history is non-empty. -/
def pointerMatches (d : AppData) : Prop :=
  d.history ≠ [] →
    d.state.current_wallpaper_id =
      Option.map Wallpaper.id d.history[d.state.current_history_index]?

/-- The scheduling relation of §3: `next_run_at` parses to exactly
`last_run_at + interval_minutes`. -/
def nextRunConsistent (w : World) : Prop :=
  parseRfc3339 w.data.state.next_run_at =
    Option.map (fun t => t + minutes w.data.config.interval_minutes)
      (parseRfc3339 w.data.state.last_run_at)

instance (d : AppData) : Decidable (indexOk d) := by
  unfold indexOk; infer_instance

instance (d : AppData) : Decidable (pointerMatches d) := by
  unfold pointerMatches; infer_instance

instance (w : World) : Decidable (nextRunConsistent w) := by
  unfold nextRunConsistent; infer_instance

/-! Concrete fixtures used by witnesses and counterexamples. -/

/-- A configured credential with a one-hour interval and 7-day retention. -/
def cfg1 : Config :=
  { unsplash_access_key := "KEY", collections := [], custom_collections := [],
    interval_minutes := 60, retention_days := some 7 }

def wpA : Wallpaper :=
  { id := "a", filename := "a.jpg", applied_at := Tstamp.parsed 0,
    title := none, author := none, url := none }

def wpB : Wallpaper :=
  { id := "b", filename := "b.jpg", applied_at := Tstamp.parsed 10,
    title := none, author := none, url := none }

def wpC : Wallpaper :=
  { id := "c", filename := "c.jpg", applied_at := Tstamp.invalid "garbage",
    title := none, author := none, url := none }

def st1 : State :=
  { is_running := true, next_run_at := Tstamp.parsed 0,
    last_run_at := Tstamp.parsed 0, current_wallpaper_id := some "a",
    current_history_index := 0 }

/-- Two cached entries, cursor at 0, wallpaper due since instant 0. -/
def world1 : World :=
  { data := { config := cfg1, state := st1, history := [wpA, wpB] },
    files := ["a.jpg", "b.jpg"] }

/-- An environment where the filesystem and the OS set call cooperate but
any provider fetch would fail. -/
def env1 : Env :=
  { now := 100, fsHas := fun _ => true, setOk := fun _ => true,
    fetchRandom := Except.error WallpErr.providerError, downloadOk := true }

def photoP : Photo :=
  { id := "p", description := some "desc", alt_description := none,
    urls_full := "u", user_name := "n", links_html := "l" }

/-- Configured credential, empty history. -/
def world2 : World :=
  { data := { config := cfg1, state := st1, history := [] }, files := [] }

/-- The provider and the download succeed but the OS set call fails. -/
def env2 : Env :=
  { now := 50, fsHas := fun _ => true, setOk := fun _ => false,
    fetchRandom := Except.ok photoP, downloadOk := true }

def st3 : State :=
  { is_running := true, next_run_at := Tstamp.parsed 0,
    last_run_at := Tstamp.parsed 0, current_wallpaper_id := some "b",
    current_history_index := 1 }

/-- Two cached entries, cursor at the end, pointer consistent. -/
def world3 : World :=
  { data := { config := cfg1, state := st3, history := [wpA, wpB] },
    files := ["a.jpg", "b.jpg"] }

/-- A fully cooperative environment: provider, download, filesystem and OS
set call all succeed. -/
def envOk : Env :=
  { now := 100, fsHas := fun _ => true, setOk := fun _ => true,
    fetchRandom := Except.ok photoP, downloadOk := true }

/-- The world after a successful fetch from `world3`. -/
def worldAfterFetch : World := (fetch_and_set_new world3 envOk).1

/-- Retention 0 with two entries whose backing file for the older one is
absent. -/
def d5 : AppData :=
  { config := { cfg1 with retention_days := some 0 }, state := st1,
    history := [wpA, wpB] }

/-- Retention 1 day with one stale entry, one fresh entry and one entry
with an unparsable timestamp. -/
def d7 : AppData :=
  { config := { cfg1 with retention_days := some 1 }, state := st1,
    history := [wpA, wpB, wpC] }

/-- Three cached entries, cursor at 0. -/
def world9 : World :=
  { data := { config := cfg1, state := st1, history := [wpA, wpB, wpC] },
    files := ["a.jpg", "b.jpg", "c.jpg"] }

def dEmpty : AppData := { config := cfg1, state := st1, history := [] }

/-- Non-empty history with the cursor out of bounds. -/
def dOOB : AppData :=
  { config := cfg1,
    state := { st1 with current_history_index := 5 }, history := [wpA] }

def dOk : AppData := { config := cfg1, state := st1, history := [wpA] }

/-! Helper lemmas shared by the claim theorems. -/

theorem clampIndex_history (d : AppData) : (clampIndex d).history = d.history := by
  unfold clampIndex
  split <;> rfl

theorem indexOk_clamp (d : AppData) : indexOk (clampIndex d) := by
  unfold clampIndex indexOk
  split
  next hc =>
    refine ⟨fun he => ?_, fun hne => ?_⟩
    · have h0 : d.history.length = 0 := by
        rw [show d.history = [] from he]
        rfl
      show d.history.length - 1 = 0
      omega
    · have h0 : 0 < d.history.length :=
        List.length_pos.mpr (fun hh => hne hh)
      show d.history.length - 1 < d.history.length
      omega
  next hc =>
    refine ⟨fun he => ?_, fun hne => ?_⟩
    · have h0 : d.history.length = 0 := by
        rw [he]
        rfl
      omega
    · omega

theorem next_at_end (w : World) (env : Env)
    (h : w.data.history.length - 1 ≤ w.data.state.current_history_index) :
    next w env = fetch_and_set_new w env := by
  unfold next
  rw [if_neg (Nat.not_lt.mpr h)]

theorem check_and_run_due (w : World) (env : Env) (t : Int)
    (hkey : w.data.config.unsplash_access_key ≠ "")
    (hparse : parseRfc3339 w.data.state.next_run_at = some t)
    (hdue : t ≤ env.now) :
    check_and_run w env = next w env := by
  unfold check_and_run
  rw [if_neg hkey, hparse]
  exact if_pos hdue

theorem fetch_ok_nextRun (w : World) (env : Env) (w' : World)
    (h : fetch_and_set_new w env = (w', none)) : nextRunConsistent w' := by
  simp only [fetch_and_set_new] at h
  split at h
  · simp at h
  · split at h
    · simp at h
    · split at h
      · simp at h
      · split at h
        · simp at h
        · injection h with h1 h2
          subst h1
          simp [nextRunConsistent, parseRfc3339, minutes]

theorem fetch_ok_pointer (w : World) (env : Env) (w' : World)
    (h : fetch_and_set_new w env = (w', none)) : pointerMatches w'.data := by
  simp only [fetch_and_set_new] at h
  split at h
  · simp at h
  · split at h
    · simp at h
    · split at h
      · simp at h
      · split at h
        · simp at h
        · injection h with h1 h2
          subst h1
          intro hne
          show some _ = Option.map Wallpaper.id _
          simp [List.length_append, List.getElem?_concat_length]

theorem indexOk_fetch (w : World) (env : Env) (h : indexOk w.data) :
    indexOk (fetch_and_set_new w env).1.data := by
  simp only [fetch_and_set_new]
  split
  · exact h
  · split
    · exact h
    · split
      · exact h
      · split
        · exact h
        · refine ⟨fun he => absurd he (by simp), fun hne => ?_⟩
          show (w.data.history ++ [_]).length - 1 < (w.data.history ++ [_]).length
          simp [List.length_append]

theorem next_replay_history (w : World) (env : Env)
    (hlt : w.data.state.current_history_index < w.data.history.length - 1)
    (hok : (next w env).2 = none) :
    (next w env).1.data.history = w.data.history := by
  cases hsw : set_wallpaper_from_history env
      (w.data.history.getD (w.data.state.current_history_index + 1) default) with
  | some e =>
    simp only [next, if_pos hlt, hsw] at hok
    simp at hok
  | none =>
    simp only [next, if_pos hlt, hsw]

theorem next_replay_id (w : World) (env : Env)
    (hlt : w.data.state.current_history_index < w.data.history.length - 1) :
    (next w env).1.data.state.current_wallpaper_id
      = w.data.state.current_wallpaper_id := by
  cases hsw : set_wallpaper_from_history env
      (w.data.history.getD (w.data.state.current_history_index + 1) default) with
  | some e => simp only [next, if_pos hlt, hsw]
  | none => simp only [next, if_pos hlt, hsw]

theorem prev_id (w : World) (env : Env) :
    (prev w env).1.data.state.current_wallpaper_id
      = w.data.state.current_wallpaper_id := by
  by_cases hp : 0 < w.data.state.current_history_index
  · cases hsw : set_wallpaper_from_history env
        (w.data.history.getD (w.data.state.current_history_index - 1) default) with
    | some e => simp only [prev, if_pos hp, hsw]
    | none => simp only [prev, if_pos hp, hsw]
  · simp only [prev, if_neg hp]

theorem indexOk_next (w : World) (env : Env) (h : indexOk w.data) :
    indexOk (next w env).1.data := by
  by_cases hlt :
      w.data.state.current_history_index < w.data.history.length - 1
  · cases hsw : set_wallpaper_from_history env
        (w.data.history.getD (w.data.state.current_history_index + 1) default) with
    | some e =>
      simp only [next, if_pos hlt, hsw]
      exact h
    | none =>
      simp only [next, if_pos hlt, hsw]
      refine ⟨fun he => ?_, fun hne => ?_⟩
      · have h0 : w.data.history.length = 0 := by
          rw [show w.data.history = [] from he]
          rfl
        omega
      · show w.data.state.current_history_index + 1 < w.data.history.length
        omega
  · simp only [next, if_neg hlt]
    exact indexOk_fetch w env h

theorem indexOk_prev (w : World) (env : Env) (h : indexOk w.data) :
    indexOk (prev w env).1.data := by
  by_cases hp : 0 < w.data.state.current_history_index
  · cases hsw : set_wallpaper_from_history env
        (w.data.history.getD (w.data.state.current_history_index - 1) default) with
    | some e =>
      simp only [prev, if_pos hp, hsw]
      exact h
    | none =>
      simp only [prev, if_pos hp, hsw]
      refine ⟨fun he => ?_, fun hne => ?_⟩
      · show w.data.state.current_history_index - 1 = 0
        have h1 := h.1 he
        omega
      · have hi : w.data.state.current_history_index < w.data.history.length :=
          h.2 (fun hh => hne hh)
        show w.data.state.current_history_index - 1 < w.data.history.length
        omega
  · simp only [prev, if_neg hp]
    exact h

theorem retainLoop_kept (cutoff : Int) (delOk : String → Bool) :
    ∀ (l : List Wallpaper) (files : List String),
      (retainLoop cutoff delOk l files).1 =
        l.filter (fun wp => !staleAt cutoff wp)
  | [], _ => rfl
  | wp :: rest, files => by
    by_cases hs : staleAt cutoff wp = true
    · simp only [retainLoop, hs, if_pos, List.filter_cons, Bool.not_true,
        Bool.false_eq_true, if_false]
      split
      · split
        · exact retainLoop_kept cutoff delOk rest (files.erase wp.filename)
        · exact retainLoop_kept cutoff delOk rest files
      · exact retainLoop_kept cutoff delOk rest files
    · have hs' : staleAt cutoff wp = false := by
        cases hv : staleAt cutoff wp
        · rfl
        · exact absurd hv hs
      simp only [retainLoop, hs', List.filter_cons, Bool.not_false, if_true,
        Bool.false_eq_true, if_false]
      exact congrArg (fun t => wp :: t)
        (retainLoop_kept cutoff delOk rest files)

theorem deleteFiles_spec (delOk : String → Bool) :
    ∀ (l : List Wallpaper) (files : List String),
      (deleteFiles delOk l files).2 + (deleteFiles delOk l files).1.length
          = files.length ∧
      (deleteFiles delOk l files).2 ≤ l.length
  | [], files => by
    constructor
    · show 0 + files.length = files.length
      omega
    · show 0 ≤ 0
      omega
  | wp :: rest, files => by
    by_cases hm : wp.filename ∈ files
    · by_cases hd : delOk wp.filename = true
      · obtain ⟨ih1, ih2⟩ := deleteFiles_spec delOk rest (files.erase wp.filename)
        have hlen : (files.erase wp.filename).length = files.length - 1 :=
          List.length_erase_of_mem hm
        have hpos : 0 < files.length := List.length_pos_of_mem hm
        simp only [deleteFiles, if_pos hm, if_pos hd]
        constructor
        · show (deleteFiles delOk rest (files.erase wp.filename)).2 + 1 +
            (deleteFiles delOk rest (files.erase wp.filename)).1.length
              = files.length
          omega
        · show (deleteFiles delOk rest (files.erase wp.filename)).2 + 1 ≤
            rest.length + 1
          omega
      · obtain ⟨ih1, ih2⟩ := deleteFiles_spec delOk rest files
        simp only [deleteFiles, if_pos hm, if_neg hd]
        exact ⟨ih1, by simp only [List.length_cons]; omega⟩
    · obtain ⟨ih1, ih2⟩ := deleteFiles_spec delOk rest files
      simp only [deleteFiles, if_neg hm]
      exact ⟨ih1, by simp only [List.length_cons]; omega⟩

theorem retainLoop_spec (cutoff : Int) (delOk : String → Bool) :
    ∀ (l : List Wallpaper) (files : List String),
      (retainLoop cutoff delOk l files).2.2 +
          (retainLoop cutoff delOk l files).2.1.length = files.length ∧
      (retainLoop cutoff delOk l files).1.length +
          (retainLoop cutoff delOk l files).2.2 ≤ l.length
  | [], files => by
    constructor
    · show 0 + files.length = files.length
      omega
    · show 0 + 0 ≤ 0
      omega
  | wp :: rest, files => by
    by_cases hs : staleAt cutoff wp = true
    · by_cases hm : wp.filename ∈ files
      · by_cases hd : delOk wp.filename = true
        · obtain ⟨ih1, ih2⟩ := retainLoop_spec cutoff delOk rest (files.erase wp.filename)
          have hlen : (files.erase wp.filename).length = files.length - 1 :=
            List.length_erase_of_mem hm
          have hpos : 0 < files.length := List.length_pos_of_mem hm
          simp only [retainLoop, hs, if_pos, if_pos hm, if_pos hd]
          constructor
          · show (retainLoop cutoff delOk rest (files.erase wp.filename)).2.2 + 1 +
              (retainLoop cutoff delOk rest (files.erase wp.filename)).2.1.length
                = files.length
            omega
          · show (retainLoop cutoff delOk rest (files.erase wp.filename)).1.length +
              ((retainLoop cutoff delOk rest (files.erase wp.filename)).2.2 + 1)
                ≤ rest.length + 1
            omega
        · obtain ⟨ih1, ih2⟩ := retainLoop_spec cutoff delOk rest files
          simp only [retainLoop, hs, if_pos, if_pos hm, if_neg hd]
          exact ⟨ih1, by simp only [List.length_cons]; omega⟩
      · obtain ⟨ih1, ih2⟩ := retainLoop_spec cutoff delOk rest files
        simp only [retainLoop, hs, if_pos, if_neg hm]
        exact ⟨ih1, by simp only [List.length_cons]; omega⟩
    · have hs' : staleAt cutoff wp = false := by
        cases hv : staleAt cutoff wp
        · rfl
        · exact absurd hv hs
      obtain ⟨ih1, ih2⟩ := retainLoop_spec cutoff delOk rest files
      simp only [retainLoop, hs', Bool.false_eq_true, if_false]
      constructor
      · exact ih1
      · show (wp :: (retainLoop cutoff delOk rest files).1).length +
          (retainLoop cutoff delOk rest files).2.2 ≤ rest.length + 1
        simp only [List.length_cons]
        omega

theorem drop_last_eq {α : Type} (l : List α) (h : l ≠ []) :
    l.drop (l.length - 1) = [l.getLast h] := by
  have hpos : 0 < l.length := List.length_pos.mpr h
  have hlt : l.length - 1 < l.length := by omega
  rw [List.drop_eq_getElem_cons hlt]
  rw [show l.length - 1 + 1 = l.length from by omega]
  rw [List.drop_length]
  rw [List.getLast_eq_getElem]

/-! The claims. -/

/-- C1, counterexample: a due scheduler tick (`now = 100 >= next_run_at = 0`)
on a state with a non-empty credential, a parsable `next_run_at` and the
cursor before the end of history succeeds while appending no history entry
and merely advancing the cursor over cached history — in an environment
whose provider fetch would fail, so the Fetch Orchestrator cannot have been
invoked. This refutes "the advance always goes through the Fetch
Orchestrator, regardless of the cursor position". -/
theorem c1_counterexample :
    (check_and_run world1 env1).2 = none ∧
    (check_and_run world1 env1).1.data.history = world1.data.history ∧
    (check_and_run world1 env1).1.data.state.current_history_index = 1 := by
  decide

/-- C1 (amended): on a due scheduler tick with a non-empty credential and a
parsable `next_run_at`, the scheduler invokes the same path as a manual
`next`: it goes through the Fetch Orchestrator exactly when the cursor is
at the end of history; when the cursor is before the end a successful tick
merely replays the next cached entry, leaving history unchanged. -/
theorem c1_scheduled_advance (w : World) (env : Env) (t : Int)
    (hkey : w.data.config.unsplash_access_key ≠ "")
    (hparse : parseRfc3339 w.data.state.next_run_at = some t)
    (hdue : t ≤ env.now) :
    check_and_run w env = next w env ∧
    (w.data.history.length - 1 ≤ w.data.state.current_history_index →
      check_and_run w env = fetch_and_set_new w env) ∧
    (w.data.state.current_history_index < w.data.history.length - 1 →
      (check_and_run w env).2 = none →
      (check_and_run w env).1.data.history = w.data.history) := by
  have h1 := check_and_run_due w env t hkey hparse hdue
  refine ⟨h1, fun hend => ?_, fun hlt hok => ?_⟩
  · rw [h1]
    exact next_at_end w env hend
  · rw [h1] at hok ⊢
    exact next_replay_history w env hlt hok

/-- C1 witness: with the cursor at the end of a two-entry history and the
due time passed, the scheduled tick is exactly a fetch. -/
theorem c1_scheduled_advance_witness :
    check_and_run world3 envOk = fetch_and_set_new world3 envOk :=
  (c1_scheduled_advance world3 envOk 0 (by decide) rfl (by decide)).2.1
    (by decide)

/-- C2, counterexample: when the OS wallpaper-set call fails after a
successful download, `fetch_and_set_new` surfaces the error and keeps the
artifact on disk, but the persisted record is entirely unchanged: no
history entry is appended and no state is committed, refuting "the new
history entry is still appended and the updated state is still
committed". -/
theorem c2_counterexample :
    (fetch_and_set_new world2 env2).2 = some WallpErr.setFailed ∧
    (fetch_and_set_new world2 env2).1.data = world2.data ∧
    "wallpaper_p.jpg" ∈ (fetch_and_set_new world2 env2).1.files := by
  decide

/-- C2 (amended): if the OS wallpaper-set call fails after the artifact was
downloaded successfully, the artifact is kept on disk, but the history
entry is NOT appended and the state is NOT committed — the operation
returns the set failure with the persisted record untouched. -/
theorem c2_set_failure (w : World) (env : Env) (photo : Photo)
    (hkey : w.data.config.unsplash_access_key ≠ "")
    (hfetch : env.fetchRandom = Except.ok photo)
    (hdl : env.downloadOk = true)
    (hset : env.setOk ("wallpaper_" ++ photo.id ++ ".jpg") = false) :
    fetch_and_set_new w env =
      ({ w with files := w.files ++ ["wallpaper_" ++ photo.id ++ ".jpg"] },
        some WallpErr.setFailed) := by
  simp [fetch_and_set_new, hkey, hfetch, hdl, hset]

/-- C2 witness: the amended behavior at a concrete state and environment. -/
theorem c2_set_failure_witness :
    fetch_and_set_new world2 env2 =
      ({ world2 with
          files := world2.files ++ ["wallpaper_" ++ photoP.id ++ ".jpg"] },
        some WallpErr.setFailed) :=
  c2_set_failure world2 env2 photoP (by decide) rfl rfl rfl

/-- C3, counterexample: from a consistent state (two entries, cursor at 1,
pointer "b"), a successful `prev` moves the cursor to 0 but leaves
`current_wallpaper_id` untouched, so the denormalized pointer no longer
matches `history[current_history_index].id`. -/
theorem c3_counterexample :
    (prev world3 env1).2 = none ∧
    ¬ pointerMatches (prev world3 env1).1.data := by
  decide

/-- C3 (amended): only `fetch_and_set_new` maintains the denormalized
pointer: after a successful fetch `current_wallpaper_id` matches
`history[current_history_index].id`, while `next` (replaying cached
history) and `prev` move the cursor without ever updating
`current_wallpaper_id`. -/
theorem c3_pointer (w w' : World) (env : Env) :
    (fetch_and_set_new w env = (w', none) → pointerMatches w'.data) ∧
    (w.data.state.current_history_index < w.data.history.length - 1 →
      (next w env).1.data.state.current_wallpaper_id
        = w.data.state.current_wallpaper_id) ∧
    (prev w env).1.data.state.current_wallpaper_id
      = w.data.state.current_wallpaper_id :=
  ⟨fetch_ok_pointer w env w', next_replay_id w env, prev_id w env⟩

/-- C3 witness: the pointer invariant holds after a concrete successful
fetch. -/
theorem c3_pointer_witness : pointerMatches worldAfterFetch.data :=
  (c3_pointer world3 worldAfterFetch envOk).1 (by decide)

/-- C4 (confirmed): immediately after any successful advance that sets a
new wallpaper — a manual `new`, a `fetch_and_set_new`, a `next` taken at
the end of history, or a due scheduled trigger at the end of history —
`next_run_at` parses to exactly `last_run_at + interval_minutes`. -/
theorem c4_next_run (w w' : World) (env : Env) :
    (fetch_and_set_new w env = (w', none) → nextRunConsistent w') ∧
    (new w env = (w', none) → nextRunConsistent w') ∧
    (w.data.history.length - 1 ≤ w.data.state.current_history_index →
      next w env = (w', none) → nextRunConsistent w') ∧
    (w.data.config.unsplash_access_key ≠ "" →
      (∃ t, parseRfc3339 w.data.state.next_run_at = some t ∧ t ≤ env.now) →
      w.data.history.length - 1 ≤ w.data.state.current_history_index →
      check_and_run w env = (w', none) → nextRunConsistent w') := by
  refine ⟨fetch_ok_nextRun w env w', fetch_ok_nextRun w env w',
    fun hend h => ?_, fun hkey ht hend h => ?_⟩
  · rw [next_at_end w env hend] at h
    exact fetch_ok_nextRun w env w' h
  · obtain ⟨t, hparse, hdue⟩ := ht
    rw [check_and_run_due w env t hkey hparse hdue,
      next_at_end w env hend] at h
    exact fetch_ok_nextRun w env w' h

/-- C4 witness: the scheduling relation holds after a concrete successful
fetch. -/
theorem c4_next_run_witness : nextRunConsistent worldAfterFetch :=
  (c4_next_run world3 worldAfterFetch envOk).1 (by decide)

/-- C5, counterexample: retention 0 with two history entries where the
older entry's backing file is absent: cleanup removes one entry from the
history list but returns a count of 0, refuting "the count equals the
number of history entries removed ... including entries whose backing file
is absent". -/
theorem c5_counterexample :
    d5.history.length = 2 ∧
    (cleanup_old_wallpapers_in d5 ["b.jpg"] 0 (fun _ => true)).1.history.length
      = 1 ∧
    (cleanup_old_wallpapers_in d5 ["b.jpg"] 0 (fun _ => true)).2.2 = 0 := by
  decide

/-- C5 (amended): the count returned by cleanup is the number of backing
files it actually deleted — count plus the files remaining equals the
files present before — and it never exceeds the number of history entries
removed; entries whose file is absent or whose deletion fails are removed
from history without being counted. -/
theorem c5_cleanup_count (d : AppData) (files : List String) (now : Int)
    (delOk : String → Bool) :
    (cleanup_old_wallpapers_in d files now delOk).2.2 +
        (cleanup_old_wallpapers_in d files now delOk).1.history.length
      ≤ d.history.length ∧
    (cleanup_old_wallpapers_in d files now delOk).2.2 +
        (cleanup_old_wallpapers_in d files now delOk).2.1.length
      = files.length := by
  cases hr : d.config.retention_days with
  | none =>
    simp only [cleanup_old_wallpapers_in, hr]
    constructor
    · show 0 + d.history.length ≤ d.history.length
      omega
    · show 0 + files.length = files.length
      omega
  | some retention =>
    simp only [cleanup_old_wallpapers_in, hr]
    by_cases h0 : retention = 0
    · rw [if_pos h0]
      by_cases hl : 1 < d.history.length
      · rw [if_pos hl]
        obtain ⟨hd1, hd2⟩ := deleteFiles_spec delOk
          (d.history.take (d.history.length - 1)) files
        have htake : (d.history.take (d.history.length - 1)).length
            = d.history.length - 1 := by
          rw [List.length_take]
          omega
        have hdrop :
            (clampIndex { d with
              history := d.history.drop (d.history.length - 1) }).history.length
            = d.history.length - (d.history.length - 1) := by
          rw [clampIndex_history]
          exact List.length_drop _ _
        constructor
        · show (deleteFiles delOk (d.history.take (d.history.length - 1))
              files).2 +
            (clampIndex { d with
              history := d.history.drop (d.history.length - 1) }).history.length
            ≤ d.history.length
          omega
        · exact hd1
      · rw [if_neg hl]
        have hcl : (clampIndex d).history.length = d.history.length := by
          rw [clampIndex_history]
        constructor
        · show 0 + (clampIndex d).history.length ≤ d.history.length
          omega
        · show 0 + files.length = files.length
          omega
    · rw [if_neg h0]
      obtain ⟨hr1, hr2⟩ := retainLoop_spec (now - days retention) delOk
        d.history files
      have hcl : (clampIndex { d with
          history := (retainLoop (now - days retention) delOk
            d.history files).1 }).history.length
          = (retainLoop (now - days retention) delOk d.history files).1.length := by
        rw [clampIndex_history]
      constructor
      · show (retainLoop (now - days retention) delOk d.history files).2.2 +
          (clampIndex { d with
            history := (retainLoop (now - days retention) delOk
              d.history files).1 }).history.length
          ≤ d.history.length
        omega
      · exact hr1

/-- C6 (confirmed): whenever the index-bounds invariant holds before the
operation, it holds after `next`, `prev`, `fetch_and_set_new` and
retention cleanup, regardless of outcome: the cursor stays inside a
non-empty history and is 0 when history is empty. -/
theorem c6_index_bounds (w : World) (env : Env) (files : List String)
    (now : Int) (delOk : String → Bool) (h : indexOk w.data) :
    indexOk (next w env).1.data ∧ indexOk (prev w env).1.data ∧
    indexOk (fetch_and_set_new w env).1.data ∧
    indexOk (cleanup_old_wallpapers_in w.data files now delOk).1 := by
  refine ⟨indexOk_next w env h, indexOk_prev w env h,
    indexOk_fetch w env h, ?_⟩
  cases hr : w.data.config.retention_days with
  | none =>
    simp only [cleanup_old_wallpapers_in, hr]
    exact h
  | some retention =>
    simp only [cleanup_old_wallpapers_in, hr]
    by_cases h0 : retention = 0
    · rw [if_pos h0]
      exact indexOk_clamp _
    · rw [if_neg h0]
      exact indexOk_clamp _

/-- C6 witness: the invariant is preserved by all four operations from a
concrete in-bounds state. -/
theorem c6_index_bounds_witness :
    indexOk (next world1 env1).1.data ∧
    indexOk (prev world1 env1).1.data ∧
    indexOk (fetch_and_set_new world1 env1).1.data ∧
    indexOk (cleanup_old_wallpapers_in world1.data ["a.jpg"] 0
      (fun _ => true)).1 :=
  c6_index_bounds world1 env1 ["a.jpg"] 0 (fun _ => true) (by decide)

/-- C7 (confirmed): with a `KeepDays(n)` policy (`retention_days = some n`,
`n ≠ 0`) the kept history is exactly the filter of the old history by "not
stale at `now - n` days": an entry is removed iff its `applied_at` parses
and is strictly before the cutoff, entries with unparsable timestamps are
retained, and the relative order of kept entries is unchanged. -/
theorem c7_keepdays (d : AppData) (files : List String) (now : Int)
    (delOk : String → Bool) (n : Nat) (hn : d.config.retention_days = some n)
    (h0 : n ≠ 0) :
    (cleanup_old_wallpapers_in d files now delOk).1.history =
      d.history.filter (fun wp => !staleAt (now - days n) wp) := by
  simp only [cleanup_old_wallpapers_in, hn, if_neg h0]
  show (clampIndex { d with
      history := (retainLoop (now - days n) delOk d.history files).1 }).history
    = _
  rw [clampIndex_history]
  exact retainLoop_kept (now - days n) delOk d.history files

/-- C7 witness: one stale entry is removed, one fresh entry and one entry
with an unparsable timestamp are kept, in order. -/
theorem c7_keepdays_witness :
    (cleanup_old_wallpapers_in d7 ["a.jpg", "b.jpg", "c.jpg"] 86405
        (fun _ => true)).1.history =
      d7.history.filter (fun wp => !staleAt (86405 - days 1) wp) :=
  c7_keepdays d7 ["a.jpg", "b.jpg", "c.jpg"] 86405 (fun _ => true) 1 rfl
    (by decide)

/-- C8 (confirmed): under `DeleteImmediately` (`retention_days = some 0`)
cleanup leaves at most one history entry, and when the input history is
non-empty the single kept entry is its last element. -/
theorem c8_delete_immediately (d : AppData) (files : List String) (now : Int)
    (delOk : String → Bool) (h : d.config.retention_days = some 0) :
    (cleanup_old_wallpapers_in d files now delOk).1.history.length ≤ 1 ∧
    ∀ hne : d.history ≠ [],
      (cleanup_old_wallpapers_in d files now delOk).1.history =
        [d.history.getLast hne] := by
  simp only [cleanup_old_wallpapers_in, h, if_pos]
  by_cases hl : 1 < d.history.length
  · rw [if_pos hl]
    have hne : d.history ≠ [] := by
      intro hh
      rw [hh] at hl
      simp at hl
    have hdrop := drop_last_eq d.history hne
    constructor
    · show (clampIndex { d with
          history := d.history.drop (d.history.length - 1) }).history.length ≤ 1
      rw [clampIndex_history]
      show (d.history.drop (d.history.length - 1)).length ≤ 1
      rw [hdrop]
      rfl
    · intro hne2
      show (clampIndex { d with
          history := d.history.drop (d.history.length - 1) }).history = _
      rw [clampIndex_history]
      exact drop_last_eq d.history hne2
  · rw [if_neg hl]
    have hlen : d.history.length ≤ 1 := by omega
    constructor
    · show (clampIndex d).history.length ≤ 1
      rw [clampIndex_history]
      exact hlen
    · intro hne
      show (clampIndex d).history = _
      rw [clampIndex_history]
      have hdrop := drop_last_eq d.history hne
      rw [show d.history.length - 1 = 0 from by omega] at hdrop
      simpa using hdrop

/-- C8 witness: retention 0 on a concrete two-entry history keeps exactly
the last entry. -/
theorem c8_delete_immediately_witness :
    (cleanup_old_wallpapers_in d5 ["b.jpg"] 0 (fun _ => true)).1.history.length
      ≤ 1 ∧
    (cleanup_old_wallpapers_in d5 ["b.jpg"] 0 (fun _ => true)).1.history =
      [d5.history.getLast (by decide)] :=
  ⟨(c8_delete_immediately d5 ["b.jpg"] 0 (fun _ => true) rfl).1,
   (c8_delete_immediately d5 ["b.jpg"] 0 (fun _ => true) rfl).2 (by decide)⟩

/-- C9 (confirmed): for every persisted state whose cursor is at 0, `prev`
fails with the no-previous-entry error and returns the world entirely
unchanged: history, cursor, pointer, `last_run_at` and `next_run_at` are
all as before. -/
theorem c9_prev_at_zero (w : World) (env : Env)
    (h : w.data.state.current_history_index = 0) :
    prev w env = (w, some WallpErr.noPrevious) := by
  simp only [prev, h]
  rfl

/-- C9 witness: `prev` on a three-entry history with the cursor at 0. -/
theorem c9_prev_at_zero_witness :
    prev world9 env1 = (world9, some WallpErr.noPrevious) :=
  c9_prev_at_zero world9 env1 (by decide)

/-- C10 (confirmed): `get_current_wallpaper` is a total function of the
record: it returns `none` on an empty history, returns `none` (rather than
failing) when the cursor is out of bounds, and otherwise returns the entry
under the cursor. -/
theorem c10_get_current_total (d : AppData) :
    (d.history = [] → get_current_wallpaper d = none) ∧
    (d.history.length ≤ d.state.current_history_index →
      get_current_wallpaper d = none) ∧
    ∀ h : d.state.current_history_index < d.history.length,
      get_current_wallpaper d =
        some (d.history.get ⟨d.state.current_history_index, h⟩) := by
  refine ⟨fun he => ?_, fun hle => ?_, fun h => ?_⟩
  · simp [get_current_wallpaper, he]
  · by_cases he : d.history.isEmpty
    · simp [get_current_wallpaper, he]
    · simp only [get_current_wallpaper, he, Bool.false_eq_true, if_false]
      exact List.getElem?_eq_none hle
  · have hne : d.history.isEmpty = false := by
      rw [List.isEmpty_eq_false]
      intro hh
      rw [hh] at h
      simp at h
    simp only [get_current_wallpaper, hne, Bool.false_eq_true, if_false]
    rw [List.getElem?_eq_getElem h]
    simp

/-- C10 witness: the three cases at concrete records — empty history,
out-of-bounds cursor over a singleton history, and an in-bounds cursor. -/
theorem c10_get_current_total_witness :
    get_current_wallpaper dEmpty = none ∧
    get_current_wallpaper dOOB = none ∧
    get_current_wallpaper dOk = some wpA :=
  ⟨(c10_get_current_total dEmpty).1 rfl,
   (c10_get_current_total dOOB).2.1 (by decide),
   (c10_get_current_total dOk).2.2 (by decide)⟩

end Wallp
